import Mathlib

/-!
Shallow embedding of the goquest game core (package game): the data model
(Item, Egress, Room, Command, State), the world loader `New`, the lookup
helpers (`GetEgress`, `GetEgressByAlias`, `GetItemByAlias`, `RemoveItem`),
the command parser prefix `ParseCommand`, and the state machine `Advance`.

Go-specific behaviour is modelled explicitly:
- a Go `map` value may be nil; reading a nil map yields the zero value,
  writing to a nil map panics. `State.World` is therefore an
  `Option` of an association list, `none` standing for the nil map.
- a nil `*Room` is `none`; calling a value-receiver method on it panics.
- functions that can panic return a result type with a `panicked` case.
- the repository predates Go 1.22, so a `for _, eg := range ...` loop has a
  single loop variable reused across iterations; `&eg` is the address of
  that one cell, whose value after the loop is the final element.
-/

/-- Item from game.go: an object that can be picked up. -/
structure Item where
  Label : String
  Name : String
  Description : String
  Aliases : List String
deriving DecidableEq, Repr

/-- Egress from game.go: an exit edge of a room. -/
structure Egress where
  DestLabel : String
  Description : String
  TravelMessage : String
  Aliases : List String
deriving DecidableEq, Repr

/-- Room from game.go. -/
structure Room where
  Label : String
  Name : String
  Description : String
  Exits : List Egress
  Items : List Item
deriving DecidableEq, Repr

/-- Command from the parser file: Verb, Instrument, Recipient. -/
structure Command where
  Verb : String
  Instrument : String
  Recipient : String
deriving DecidableEq, Repr

/-- State from rooms.go: `World map[string]*Room`, `CurrentRoom *Room`,
`Inventory []string`. The `Option` on World models a possibly-nil Go map
(the zero value of `State` has a nil World); the `Option` on CurrentRoom
models a possibly-nil pointer. Rooms are stored by value: `Advance` never
mutates a room in place, so pointer identity is not observable here. -/
structure State where
  World : Option (List (String × Room))
  CurrentRoom : Option Room
  Inventory : List String
deriving DecidableEq, Repr

/-- Go fmt %q on a string (escaping of special characters elided; every
string quoted in this development is plain). -/
def goQuote (s : String) : String := "\"" ++ s ++ "\""

/-- strings.Join(elems, sep): accumulator loop. -/
def goJoinLoop : List String → String → String → String
  | [], _, acc => acc
  | x :: rest, sep, acc => goJoinLoop rest sep (acc ++ sep ++ x)

/-- strings.Join(elems, sep). -/
def goJoin (elems : List String) (sep : String) : String :=
  match elems with
  | [] => ""
  | e :: rest => goJoinLoop rest sep e

/-- Go fmt %q on a []string: the quoted elements, space separated, in
square brackets. -/
def quoteList (l : List String) : String :=
  "[" ++ goJoin (l.map goQuote) " " ++ "]"

/-- unicode.IsSpace, as used by strings.Fields: Latin-1 white space plus
the Unicode White_Space code points. -/
def goIsSpace (c : Char) : Bool :=
  decide (c.toNat = 0x20) || decide (c.toNat = 0x9) || decide (c.toNat = 0xa) ||
  decide (c.toNat = 0xb) || decide (c.toNat = 0xc) || decide (c.toNat = 0xd) ||
  decide (c.toNat = 0x85) || decide (c.toNat = 0xa0) || decide (c.toNat = 0x1680) ||
  (decide (0x2000 ≤ c.toNat) && decide (c.toNat ≤ 0x200a)) ||
  decide (c.toNat = 0x2028) || decide (c.toNat = 0x2029) ||
  decide (c.toNat = 0x202f) || decide (c.toNat = 0x205f) || decide (c.toNat = 0x3000)

/-- unicode.ToUpper on one rune, modelled on the ASCII range; runes outside
it are left unchanged (Go and this model agree on every character used in
this development, in particular on all white space). -/
def goToUpperChar (c : Char) : Char :=
  if decide (0x61 ≤ c.toNat) && decide (c.toNat ≤ 0x7a) then Char.ofNat (c.toNat - 0x20)
  else c

/-- strings.ToUpper: rune-wise case mapping. -/
def goToUpper (s : String) : String := String.mk (s.data.map goToUpperChar)

/-- Core loop of strings.Fields: split into maximal runs of non-space
characters; `acc` is the current field, reversed. -/
def fieldsCore : List Char → List Char → List String
  | [], acc => if acc.isEmpty then [] else [String.mk acc.reverse]
  | c :: cs, acc =>
    if goIsSpace c then
      if acc.isEmpty then fieldsCore cs []
      else String.mk acc.reverse :: fieldsCore cs []
    else fieldsCore cs (c :: acc)

/-- strings.Fields. -/
def goFields (s : String) : List String := fieldsCore s.data []

/-- Item.Copy from game.go. -/
def Item.Copy (item : Item) : Item :=
  ⟨item.Label, item.Name, item.Description, item.Aliases⟩

/-- Egress.Copy from game.go. -/
def Egress.Copy (egress : Egress) : Egress :=
  ⟨egress.DestLabel, egress.Description, egress.TravelMessage, egress.Aliases⟩

/-- Room.Copy from game.go: deep copy of Exits and Items. -/
def Room.Copy (room : Room) : Room :=
  ⟨room.Label, room.Name, room.Description,
    room.Exits.map Egress.Copy, room.Items.map Item.Copy⟩

/-- The scan loop shared by GetEgress and GetEgressByAlias. The Go code is
a `for _, eg := range room.Exits` loop that sets `foundEgress = &eg` and
breaks only the inner alias loop, so the outer loop always runs to the
end. `&eg` is the address of the single per-loop variable, so the result
is the pair (was foundEgress ever assigned, final value of the loop
variable = the last element scanned). -/
def getEgressGoLoop (alname : String) : List Egress → Bool → Option Egress → Bool × Option Egress
  | [], found, cell => (found, cell)
  | eg :: rest, found, _cell =>
    getEgressGoLoop alname rest (found || eg.Aliases.contains alname) (some eg)

/-- Room.GetEgress: nil unless some exit's alias list contains `alname`;
otherwise the value behind the returned pointer is the reused loop
variable's final value, i.e. the room's last exit. -/
def Room.GetEgress (room : Room) (alname : String) : Option Egress :=
  match getEgressGoLoop alname room.Exits false none with
  | (true, cell) => cell
  | (false, _) => none

/-- Room.GetEgressByAlias from game.go: same loop body as GetEgress. -/
def Room.GetEgressByAlias (room : Room) (alname : String) : Option Egress :=
  match getEgressGoLoop alname room.Exits false none with
  | (true, cell) => cell
  | (false, _) => none

/-- Same reused-loop-variable scan over the room's Items. -/
def getItemGoLoop (alname : String) : List Item → Bool → Option Item → Bool × Option Item
  | [], found, cell => (found, cell)
  | it :: rest, found, _cell =>
    getItemGoLoop alname rest (found || it.Aliases.contains alname) (some it)

/-- Room.GetItemByAlias. -/
def Room.GetItemByAlias (room : Room) (alname : String) : Option Item :=
  match getItemGoLoop alname room.Items false none with
  | (true, cell) => cell
  | (false, _) => none

/-- The egress lookup as the spec words it: the first exit in the room's
Exits order whose alias list contains the string. Stated only for
comparison with the source translation `Room.GetEgress`. -/
def firstEgressMatching (room : Room) (alname : String) : Option Egress :=
  room.Exits.find? (fun eg => eg.Aliases.contains alname)

/-- The index-search loop of Room.RemoveItem: first index whose Label
matches, -1 (here: none) if absent. -/
def itemIndexFind (label : String) : List Item → Option Nat
  | [] => none
  | it :: rest =>
    if it.Label = label then some 0
    else (itemIndexFind label rest).map (· + 1)

/-- Room.RemoveItem: splice out the found index, no-op when absent. -/
def Room.RemoveItem (room : Room) (label : String) : Room :=
  match itemIndexFind label room.Items with
  | none => room
  | some i => { room with Items := room.Items.take i ++ room.Items.drop (i + 1) }

/-- Association-list read of a Go map; a missing key yields the zero
value (here: none). -/
def assocFind : List (String × Room) → String → Option Room
  | [], _ => none
  | (k, v) :: rest, key => if k = key then some v else assocFind rest key

/-- Association-list write of a Go map: replace or append. -/
def assocSet : List (String × Room) → String → Room → List (String × Room)
  | [], key, v => [(key, v)]
  | (k, v0) :: rest, key, v =>
    if k = key then (key, v) :: rest else (k, v0) :: assocSet rest key v

/-- Read `w[key]` where `w` may be the nil map (reading nil is fine in Go
and misses every key). -/
def worldGet (w : Option (List (String × Room))) (key : String) : Option Room :=
  match w with
  | none => none
  | some l => assocFind l key

/-- Result of `New`: Go returns `(State, error)`, and the body can also
panic at runtime. -/
inductive NewResult where
  | ok (gs : State)
  | err (gs : State) (msg : String)
  | panicked (msg : String)
deriving DecidableEq, Repr

/-- The inner alias scan of the duplicate-egress-alias check in `New`
(rooms.go): test membership in `seenAliases`. The Go loop never inserts
anything into `seenAliases`, which is why the map is passed through
unchanged here. -/
def seenScanAliases (seenAliases : List String) : List String → Option String
  | [] => none
  | al :: rest =>
    if seenAliases.contains al then some al else seenScanAliases seenAliases rest

/-- The outer exit loop of the duplicate-egress-alias check in `New`:
scans every exit's aliases against `seenAliases`, which starts empty and
is never written to by the Go code. -/
def seenCheckExits (seenAliases : List String) : List Egress → Option String
  | [] => none
  | eg :: rest =>
    match seenScanAliases seenAliases eg.Aliases with
    | some al => some al
    | none => seenCheckExits seenAliases rest

/-- The room-loading loop of `New` followed by its epilogue. `w` is
`gs.World`, which `New` starts as the nil map (`none`): the Go code never
calls `make`, so the first `gs.World[r.Label] = &roomCopy` on a non-empty
room list is an assignment to an entry in a nil map, a runtime panic. -/
def newFrom (world : List Room) (w : Option (List (String × Room))) (startingRoom : String) : NewResult :=
  match world with
  | [] =>
    match worldGet w startingRoom with
    | some room => .ok ⟨w, some room, []⟩
    | none =>
      .err ⟨w, none, []⟩
        ("starting room with label " ++ goQuote startingRoom ++ " does not exist in passed-in rooms")
  | r :: rest =>
    if (worldGet w r.Label).isSome then
      .err ⟨w, none, []⟩ ("duplicate room label " ++ goQuote r.Label ++ " in roomDefs")
    else
      match seenCheckExits [] r.Exits with
      | some al =>
        .err ⟨w, none, []⟩
          ("duplicate egress alias " ++ goQuote al ++ " in room " ++ goQuote r.Label ++ " in roomDefs")
      | none =>
        match w with
        | none => .panicked "assignment to entry in nil map"
        | some wl => newFrom rest (some (assocSet wl r.Label r.Copy)) startingRoom

/-- New from rooms.go: `gs := State{}` leaves the World map nil. -/
def New (world : List Room) (startingRoom : String) : NewResult :=
  newFrom world none startingRoom

/-- The buffered output stream as Advance observes it: whether WriteString
and Flush fail, and with which underlying error text. -/
structure OStream where
  writeErr : Option String
  flushErr : Option String
deriving DecidableEq, Repr

/-- A stream whose write and flush both succeed. -/
def okStream : OStream := ⟨none, none⟩

/-- The Go panic message for dereferencing a nil pointer. -/
def nilDerefMsg : String := "runtime error: invalid memory address or nil pointer dereference"

/-- Result of one Advance call: the value of `*gs` after the call, the
returned error (none = nil), and the text written to the stream; or a
runtime panic. -/
inductive AdvanceResult where
  | ret (gs : State) (err : Option String) (written : String)
  | panicked (msg : String)
deriving DecidableEq, Repr

/-- The IO epilogue of Advance: WriteString(output + two newlines) then
Flush, each mapped to a wrapped error on failure. On failure nothing is
counted as written. -/
def writeOut (gs : State) (output : String) (ostream : OStream) : AdvanceResult :=
  match ostream.writeErr with
  | some e => .ret gs (some ("could not write output: " ++ e)) ""
  | none =>
    match ostream.flushErr with
    | some e => .ret gs (some ("could not flush output: " ++ e)) ""
    | none => .ret gs none (output ++ "\n\n")

/-- The EXITS accumulation loop of Advance. -/
def exitTableLoop : List Egress → String → String
  | [], acc => acc
  | eg :: rest, acc =>
    exitTableLoop rest (acc ++ goJoin eg.Aliases "/" ++ " -> " ++ eg.Description ++ "\n")

/-- The HELP text of Advance, line by line. -/
def helpText : String :=
  "Here are the commands you can use (WIP commands do not yet work fully):\n" ++
  "HELP       - show this help\n" ++
  "DROP/PUT   - put down an object in the room [WIP]\n" ++
  "DEBUG ROOM - print info on the current room\n" ++
  "EXITS      - show the names of all exits from the room\n" ++
  "GO/MOVE    - go to another room via one of the exits\n" ++
  "LOOK       - show the description of the room\n" ++
  "QUIT/EXIT  - end the game\n" ++
  "TAKE/GET   - pick up an object in the room [WIP]\n" ++
  "TALK/SPEAK - talk to someone/something in the room [WIP]\n" ++
  "USE        - use an object in your inventory [WIP]\n"

/-- Egress.String: Sprintf with %q on the alias slice. -/
def Egress.goString (egress : Egress) : String :=
  "Egress(" ++ quoteList egress.Aliases ++ " -> " ++ egress.DestLabel ++ ")"

/-- Room.String: Sprintf Room<label name EXITS: ...>. -/
def Room.goString (room : Room) : String :=
  "Room<" ++ room.Label ++ " " ++ goQuote room.Name ++ " EXITS: " ++
    goJoin (room.Exits.map Egress.goString) ", " ++ ">"

/-- Advance from rooms.go: switch on cmd.Verb; value-receiver calls on the
nil CurrentRoom pointer panic; the successful branches fall through to the
IO epilogue `writeOut`. -/
def State.Advance (gs : State) (cmd : Command) (ostream : OStream) : AdvanceResult :=
  if cmd.Verb = "QUIT" then
    .ret gs (some "I can\x27t QUIT; I\x27m not being executed by a quitable engine") ""
  else if cmd.Verb = "GO" then
    match gs.CurrentRoom with
    | none => .panicked nilDerefMsg
    | some room =>
      match room.GetEgress cmd.Recipient with
      | none => .ret gs (some (goQuote cmd.Recipient ++ " isn\x27t a place you can go from here")) ""
      | some egress =>
        writeOut { gs with CurrentRoom := worldGet gs.World egress.DestLabel }
          egress.TravelMessage ostream
  else if cmd.Verb = "EXITS" then
    match gs.CurrentRoom with
    | none => .panicked nilDerefMsg
    | some room => writeOut gs (exitTableLoop room.Exits "") ostream
  else if cmd.Verb = "LOOK" then
    if cmd.Recipient ≠ "" then
      .ret gs (some "I can\x27t LOOK at particular things yet") ""
    else
      match gs.CurrentRoom with
      | none => .panicked nilDerefMsg
      | some room => writeOut gs room.Description ostream
  else if cmd.Verb = "DEBUG" then
    if cmd.Recipient = "ROOM" then
      match gs.CurrentRoom with
      | none => .panicked nilDerefMsg
      | some room => writeOut gs room.goString ostream
    else
      .ret gs (some ("I don\x27t know how to debug " ++ goQuote cmd.Recipient)) ""
  else if cmd.Verb = "HELP" then
    writeOut gs helpText ostream
  else
    .ret gs (some ("I don\x27t know how to " ++ goQuote cmd.Verb)) ""

/-- Modelled from the spec: the tail of ParseCommand after the zero-token
early return is truncated in the source (the verb synonym switch at the
end of the parser file breaks off mid-statement), so the synonym table is
taken from the spec: GO/MOVE and bare directions map to GO (a bare
direction becomes its own Recipient), LOOK, EXITS, HELP, QUIT/EXIT,
DEBUG, and an unrecognized first token is an error naming the token. -/
def parseTokensFromSpec : List String → Except String Command
  | [] => .ok ⟨"", "", ""⟩
  | verb :: rest =>
    let recip := match rest with
      | [] => ""
      | r :: _ => r
    if verb = "GO" ∨ verb = "MOVE" then .ok ⟨"GO", "", recip⟩
    else if verb = "NORTH" ∨ verb = "SOUTH" ∨ verb = "EAST" ∨ verb = "WEST" then
      .ok ⟨"GO", "", verb⟩
    else if verb = "LOOK" then .ok ⟨"LOOK", "", recip⟩
    else if verb = "EXITS" then .ok ⟨"EXITS", "", ""⟩
    else if verb = "HELP" then .ok ⟨"HELP", "", ""⟩
    else if verb = "QUIT" ∨ verb = "EXIT" then .ok ⟨"QUIT", "", ""⟩
    else if verb = "DEBUG" then .ok ⟨"DEBUG", "", recip⟩
    else .error ("I don\x27t know the verb " ++ goQuote verb)

/-- ParseCommand: upper-case the line, split into fields, and return the
zero-value Command with a nil error on zero tokens; otherwise hand the
tokens to the (spec-modelled) synonym switch. -/
def ParseCommand (toParse : String) : Except String Command :=
  let normalizedCase := goToUpper toParse
  let tokens := goFields normalizedCase
  if tokens.length < 1 then .ok ⟨"", "", ""⟩
  else parseTokensFromSpec tokens

/-!
Concrete fixtures: a three-room world whose first room has two exits
(EAST to B first, SOUTH to C last), a room whose first exit dangles, and
rooms with items sharing an alias.
-/

def egEastB : Egress := ⟨"B", "dB", "msgB", ["EAST"]⟩

def egSouthC : Egress := ⟨"C", "dC", "msgC", ["SOUTH"]⟩

def roomA : Room := ⟨"A", "a", "room a", [egEastB, egSouthC], []⟩

def roomB : Room := ⟨"B", "b", "room b", [], []⟩

def roomC : Room := ⟨"C", "c", "room c", [], []⟩

def worldABC : List (String × Room) := [("A", roomA), ("B", roomB), ("C", roomC)]

def gsABC : State := ⟨some worldABC, some roomA, []⟩

def roomPlain : Room := ⟨"A", "a", "d", [], []⟩

def dupAliasRoom : Room := ⟨"A", "a", "d", [⟨"B", "dd", "t", ["X", "X"]⟩], []⟩

def egGapMissing : Egress := ⟨"MISSING", "dG", "msgGap", ["GAP"]⟩

def egToB : Egress := ⟨"B", "dB2", "msgToB", ["B"]⟩

def roomG : Room := ⟨"G", "g", "room g", [egGapMissing, egToB], []⟩

def worldGB : List (String × Room) := [("G", roomG), ("B", roomB)]

def gsGB : State := ⟨some worldGB, some roomG, []⟩

def egOutMissing : Egress := ⟨"MISSING", "dO", "msgOut", ["OUT"]⟩

def roomSolo : Room := ⟨"S", "s", "room s", [egOutMissing], []⟩

def gsSolo : State := ⟨some [("S", roomSolo)], some roomSolo, []⟩

def itemX : Item := ⟨"X", "x", "dx", ["A"]⟩

def itemY : Item := ⟨"Y", "y", "dy", ["A"]⟩

def itemZ : Item := ⟨"Z", "z", "dz", ["B"]⟩

def roomXY : Room := ⟨"R", "r", "d", [], [itemX, itemY]⟩

def roomXZ : Room := ⟨"R", "r", "d", [], [itemX, itemZ]⟩

/-!
Helper lemmas.
-/

/-- The EXITS narration as claim C10 words it: one line per exit in order,
aliases joined by "/", then " -> ", then the exit's description. -/
def exitsNarrationSpec : List Egress → String
  | [] => ""
  | eg :: rest =>
    goJoin eg.Aliases "/" ++ " -> " ++ eg.Description ++ "\n" ++ exitsNarrationSpec rest

theorem exitTableLoop_eq (l : List Egress) :
    ∀ acc : String, exitTableLoop l acc = acc ++ exitsNarrationSpec l := by
  induction l with
  | nil =>
    intro acc
    simp [exitTableLoop, exitsNarrationSpec]
  | cons eg rest ih =>
    intro acc
    simp only [exitTableLoop, exitsNarrationSpec, ih, String.append_assoc]

theorem writeOut_ok (gs : State) (output : String) :
    writeOut gs output okStream = .ret gs none (output ++ "\n\n") := rfl

theorem writeOut_same_state (gs : State) (output : String) (ostream : OStream) :
    ∃ e w, writeOut gs output ostream = .ret gs e w := by
  unfold writeOut
  cases ostream.writeErr with
  | some e => exact ⟨_, _, rfl⟩
  | none =>
    cases ostream.flushErr with
    | some e => exact ⟨_, _, rfl⟩
    | none => exact ⟨_, _, rfl⟩

/-- Removing the first item with a given label, as a structural recursion;
proved below to agree with the index-splice in Room.RemoveItem. -/
def removeFirstItem (label : String) : List Item → List Item
  | [] => []
  | it :: rest => if it.Label = label then rest else it :: removeFirstItem label rest

theorem removeItem_spliceEq (label : String) (items : List Item) :
    (match itemIndexFind label items with
      | none => items
      | some i => items.take i ++ items.drop (i + 1)) = removeFirstItem label items := by
  induction items with
  | nil => rfl
  | cons it rest ih =>
    by_cases h : it.Label = label
    · simp [itemIndexFind, removeFirstItem, h]
    · simp only [itemIndexFind, removeFirstItem, h, if_false, if_neg h]
      cases hFind : itemIndexFind label rest with
      | none =>
        rw [hFind] at ih
        exact congrArg (List.cons it) ih
      | some j =>
        rw [hFind] at ih
        show List.take (j + 1) (it :: rest) ++ List.drop (j + 1 + 1) (it :: rest)
          = it :: removeFirstItem label rest
        rw [List.take_succ_cons, List.drop_succ_cons, List.cons_append]
        exact congrArg (List.cons it) ih

theorem removeItem_items (room : Room) (label : String) :
    room.RemoveItem label = { room with Items := removeFirstItem label room.Items } := by
  unfold Room.RemoveItem
  rw [← removeItem_spliceEq label room.Items]
  cases itemIndexFind label room.Items with
  | none => rfl
  | some i => rfl

theorem itemIndexFind_none (label : String) (items : List Item)
    (h : ∀ it ∈ items, it.Label ≠ label) : itemIndexFind label items = none := by
  induction items with
  | nil => rfl
  | cons it rest ih =>
    have h1 := h it (List.mem_cons_self it rest)
    simp only [itemIndexFind, h1, if_false, if_neg h1]
    rw [ih fun it2 hm => h it2 (List.mem_cons_of_mem it hm)]
    rfl

theorem removeFirstItem_subset (label : String) (items : List Item) :
    ∀ it2 ∈ removeFirstItem label items, it2 ∈ items := by
  induction items with
  | nil => intro it2 h; exact absurd h (List.not_mem_nil it2)
  | cons it rest ih =>
    intro it2 h2
    by_cases h : it.Label = label
    · simp only [removeFirstItem, if_pos h] at h2
      exact List.mem_cons_of_mem it h2
    · simp only [removeFirstItem, if_neg h] at h2
      rcases List.mem_cons.mp h2 with h3 | h3
      · exact h3 ▸ List.mem_cons_self it rest
      · exact List.mem_cons_of_mem it (ih it2 h3)

theorem removeFirstItem_no_label (label : String) (items : List Item)
    (hnd : (items.map Item.Label).Nodup) :
    ∀ it2 ∈ removeFirstItem label items, it2.Label ≠ label := by
  induction items with
  | nil => intro it2 h; exact absurd h (List.not_mem_nil it2)
  | cons it rest ih =>
    simp only [List.map_cons, List.nodup_cons] at hnd
    intro it2 h2
    by_cases h : it.Label = label
    · simp only [removeFirstItem, if_pos h] at h2
      intro hEq
      apply hnd.1
      rw [h, ← hEq]
      exact List.mem_map_of_mem Item.Label h2
    · simp only [removeFirstItem, if_neg h] at h2
      rcases List.mem_cons.mp h2 with h3 | h3
      · exact h3 ▸ h
      · exact ih hnd.2 it2 h3

theorem getItemGoLoop_not_found (alname : String) (items : List Item)
    (h : ∀ it ∈ items, it.Aliases.contains alname = false) :
    ∀ cell, (getItemGoLoop alname items false cell).1 = false := by
  induction items with
  | nil => intro cell; rfl
  | cons it rest ih =>
    intro cell
    have h1 := h it (List.mem_cons_self it rest)
    simp only [getItemGoLoop, h1, Bool.or_false]
    exact ih (fun it2 hm => h it2 (List.mem_cons_of_mem it hm)) (some it)

theorem getItemByAlias_none (room : Room) (alname : String)
    (h : ∀ it ∈ room.Items, it.Aliases.contains alname = false) :
    room.GetItemByAlias alname = none := by
  unfold Room.GetItemByAlias
  have h1 := getItemGoLoop_not_found alname room.Items h none
  rcases hLoop : getItemGoLoop alname room.Items false none with ⟨b, cell⟩
  rw [hLoop] at h1
  simp only at h1
  rw [h1]

theorem goToUpperChar_of_space (c : Char) (h : goIsSpace c = true) :
    goToUpperChar c = c := by
  have hn : ¬ ((decide (0x61 ≤ c.toNat) && decide (c.toNat ≤ 0x7a)) = true) := by
    simp only [goIsSpace, Bool.or_eq_true, Bool.and_eq_true, decide_eq_true_eq] at h
    simp only [Bool.and_eq_true, decide_eq_true_eq, not_and]
    intro h1 h2
    omega
  unfold goToUpperChar
  exact if_neg hn

theorem fieldsCore_spaces (l : List Char) (h : ∀ c ∈ l, goIsSpace c = true) :
    fieldsCore l [] = [] := by
  induction l with
  | nil => rfl
  | cons c cs ih =>
    have hc := h c (List.mem_cons_self c cs)
    have step : fieldsCore (c :: cs) [] = fieldsCore cs [] := by
      conv_lhs => rw [fieldsCore]
      rw [hc]
      rfl
    rw [step]
    exact ih fun c2 hm => h c2 (List.mem_cons_of_mem c hm)

/-!
Claim theorems.
-/

/-- Claim C1 (code bug): `New` never allocates the World map (`gs :=
State{}` leaves it nil), so on every non-empty room list the first
`gs.World[r.Label] = &roomCopy` panics with an assignment to an entry in
a nil map. It therefore neither returns a nil error with the starting
room set (first input: valid world containing the starting label) nor a
non-nil error for a missing starting label (second input). -/
theorem C1_new_panics_on_nonempty_world :
    New [roomPlain] "A" = .panicked "assignment to entry in nil map"
    ∧ New [roomPlain] "Z" = .panicked "assignment to entry in nil map" :=
  ⟨rfl, rfl⟩

/-- Claim C2 (code bug): the duplicate-egress-alias check in `New` never
inserts anything into `seenAliases`, so it cannot detect the duplicated
alias "X" in `dupAliasRoom` (the scan returns none); construction then
panics on the nil World map instead of failing with a
duplicate-egress-alias error. -/
theorem C2_dup_alias_never_detected :
    seenCheckExits [] dupAliasRoom.Exits = none
    ∧ New [dupAliasRoom] "A" = .panicked "assignment to entry in nil map" :=
  ⟨rfl, rfl⟩

/-- Claim C4 (code bug): in `gsABC` the current room's first exit carries
alias "EAST" with destination "B" and message "msgB", but `Advance (GO
EAST)` moves to room C and narrates "msgC", because `GetEgress` returns a
pointer into the reused loop variable, which after the loop holds the
LAST exit (SOUTH to C). -/
theorem C4_go_follows_last_exit :
    gsABC.Advance ⟨"GO", "", "EAST"⟩ okStream
      = .ret ⟨some worldABC, some roomC, []⟩ none ("msgC" ++ "\n\n")
    ∧ "EAST" ∈ egEastB.Aliases ∧ egEastB.DestLabel = "B"
    ∧ assocFind worldABC "B" = some roomB ∧ roomB ≠ roomC :=
  ⟨rfl, by decide, rfl, rfl, by decide⟩

/-- Claim C5 (code bug): on a room whose FIRST exit matches the alias,
`GetEgress` and `GetEgressByAlias` return the LAST exit (the reused loop
variable's final value), not the first matching exit that the lookup is
documented to return (shown by `firstEgressMatching`). -/
theorem C5_getegress_returns_last_exit :
    roomA.GetEgress "EAST" = some egSouthC
    ∧ roomA.GetEgressByAlias "EAST" = some egSouthC
    ∧ firstEgressMatching roomA "EAST" = some egEastB
    ∧ egEastB ≠ egSouthC :=
  ⟨rfl, rfl, rfl, by decide⟩

/-- Claim C3, counterexample: with an output stream whose write fails,
`Advance (GO EAST)` on `gsABC` returns a non-nil error although
CurrentRoom has already been moved (to room C), so the State is NOT
unchanged on this failure path. -/
theorem C3_counterexample :
    gsABC.Advance ⟨"GO", "", "EAST"⟩ ⟨some "broken pipe", none⟩
      = .ret ⟨some worldABC, some roomC, []⟩ (some ("could not write output: " ++ "broken pipe")) ""
    ∧ (⟨some worldABC, some roomC, []⟩ : State) ≠ gsABC :=
  ⟨rfl, by decide⟩

/-- Claim C10, counterexample: `Advance (EXITS)` on a state with a current
room CAN fail: with an output stream whose write fails it returns a
non-nil (transport) error. -/
theorem C10_counterexample :
    gsABC.Advance ⟨"EXITS", "", ""⟩ ⟨some "broken pipe", none⟩
      = .ret gsABC (some ("could not write output: " ++ "broken pipe")) "" :=
  rfl

/-- Claim C7, counterexample: in `gsGB` the current room's FIRST exit
carries alias "GAP" and a dangling destination "MISSING", yet `Advance
(GO GAP)` does not set CurrentRoom to nil and does not narrate that
exit's travel message: the buggy `GetEgress` returns the LAST exit, whose
destination "B" exists, so CurrentRoom becomes room B with message
"msgToB". -/
theorem C7_counterexample :
    "GAP" ∈ egGapMissing.Aliases ∧ egGapMissing.DestLabel = "MISSING"
    ∧ worldGet gsGB.World "MISSING" = none
    ∧ gsGB.Advance ⟨"GO", "", "GAP"⟩ okStream
        = .ret ⟨some worldGB, some roomB, []⟩ none ("msgToB" ++ "\n\n")
    ∧ (some roomB ≠ (none : Option Room))
    ∧ "msgToB" ≠ egGapMissing.TravelMessage :=
  ⟨by decide, rfl, rfl, rfl, by decide, by decide⟩

/-- Claim C8, counterexample: room `roomXY` holds items X and Y that share
alias "A"; RemoveItem "X" removes item X, yet looking X up by its alias
"A" afterwards does not return absent (it finds Y). -/
theorem C8_counterexample :
    itemX ∈ roomXY.Items ∧ "A" ∈ itemX.Aliases
    ∧ (roomXY.RemoveItem "X").Items = [itemY]
    ∧ (roomXY.RemoveItem "X").GetItemByAlias "A" ≠ none :=
  ⟨by decide, by decide, rfl, by decide⟩

/-- Claim C6 (confirmed): Advance of a QUIT command, on every State, every
Command with Verb QUIT, and every output stream, returns the fixed
non-nil error, writes no narration, and returns the State unchanged. -/
theorem C6_quit_always_fails (gs : State) (cmd : Command) (ostream : OStream)
    (h : cmd.Verb = "QUIT") :
    gs.Advance cmd ostream
      = .ret gs (some "I can\x27t QUIT; I\x27m not being executed by a quitable engine") "" := by
  obtain ⟨v, i, r⟩ := cmd
  replace h : v = "QUIT" := h
  subst h
  rfl

theorem C6_witness :
    gsABC.Advance ⟨"QUIT", "", ""⟩ okStream
      = .ret gsABC (some "I can\x27t QUIT; I\x27m not being executed by a quitable engine") "" :=
  C6_quit_always_fails gsABC ⟨"QUIT", "", ""⟩ okStream rfl

/-- Claim C9 (confirmed): on an input that is empty or all white space,
ParseCommand returns a nil error and the zero-value Command, whose Verb
(and Instrument and Recipient) is the empty string. -/
theorem C9_parse_whitespace (s : String) (h : ∀ c ∈ s.data, goIsSpace c = true) :
    ParseCommand s = .ok ⟨"", "", ""⟩ := by
  have hfields : goFields (goToUpper s) = [] := by
    show fieldsCore (s.data.map goToUpperChar) [] = []
    apply fieldsCore_spaces
    intro c hc
    rcases List.mem_map.mp hc with ⟨d, hd, hdc⟩
    rw [← hdc, goToUpperChar_of_space d (h d hd)]
    exact h d hd
  show (if (goFields (goToUpper s)).length < 1 then (Except.ok ⟨"", "", ""⟩ : Except String Command)
    else parseTokensFromSpec (goFields (goToUpper s))) = .ok ⟨"", "", ""⟩
  rw [hfields]
  rfl

theorem C9_witness : ParseCommand "   " = .ok ⟨"", "", ""⟩ :=
  C9_parse_whitespace "   " (by decide)

/-- Claim C3 (amended): whenever Advance is run against an output stream
whose write and flush succeed and returns a non-nil error, the State is
returned unchanged. (As stated over all failure paths the claim is false:
a transport failure after a semantically valid GO returns a non-nil error
with CurrentRoom already moved, see the counterexample.) -/
theorem C3_amended_error_leaves_state_unchanged (gs gs2 : State) (cmd : Command)
    (e w : String) (h : gs.Advance cmd okStream = .ret gs2 (some e) w) : gs2 = gs := by
  unfold State.Advance at h
  repeat' split at h
  all_goals
    first
      | (injection h with hgs he hw
         exact hgs.symm)
      | (exact absurd h (by simp))
      | (rw [writeOut_ok] at h
         injection h with hgs he hw
         first
           | exact hgs.symm
           | exact absurd he (by simp))

theorem C3_witness : gsABC = gsABC :=
  C3_amended_error_leaves_state_unchanged gsABC gsABC ⟨"GO", "", "NOPE"⟩
    ("\"NOPE\"" ++ " isn\x27t a place you can go from here") "" rfl

/-- Claim C7 (amended): if the egress the lookup actually returns for the
GO Recipient (with this code's lookup: the room's LAST exit, whenever any
exit's alias matches) has a DestLabel that is no key of the World map,
and the output transport succeeds, then Advance returns a nil error and
that egress's TravelMessage and sets CurrentRoom to the map's zero value
(nil); each immediately following LOOK (bare), EXITS, GO or DEBUG ROOM
then panics on the nil room pointer. -/
theorem C7_amended_dangling_dest (gs : State) (room : Room) (egress : Egress)
    (instr recip r2 : String)
    (h1 : gs.CurrentRoom = some room)
    (h2 : room.GetEgress recip = some egress)
    (h3 : worldGet gs.World egress.DestLabel = none) :
    gs.Advance ⟨"GO", instr, recip⟩ okStream
        = .ret ⟨gs.World, none, gs.Inventory⟩ none (egress.TravelMessage ++ "\n\n")
    ∧ (State.mk gs.World none gs.Inventory).Advance ⟨"LOOK", instr, ""⟩ okStream
        = .panicked nilDerefMsg
    ∧ (State.mk gs.World none gs.Inventory).Advance ⟨"EXITS", instr, recip⟩ okStream
        = .panicked nilDerefMsg
    ∧ (State.mk gs.World none gs.Inventory).Advance ⟨"GO", instr, r2⟩ okStream
        = .panicked nilDerefMsg
    ∧ (State.mk gs.World none gs.Inventory).Advance ⟨"DEBUG", instr, "ROOM"⟩ okStream
        = .panicked nilDerefMsg := by
  obtain ⟨w0, cr, inv⟩ := gs
  replace h1 : cr = some room := h1
  subst h1
  replace h3 : worldGet w0 egress.DestLabel = none := h3
  refine ⟨?_, rfl, rfl, rfl, rfl⟩
  show (match room.GetEgress recip with
    | none => AdvanceResult.ret ⟨w0, some room, inv⟩
        (some (goQuote recip ++ " isn\x27t a place you can go from here")) ""
    | some egress2 => writeOut ⟨w0, worldGet w0 egress2.DestLabel, inv⟩
        egress2.TravelMessage okStream)
      = AdvanceResult.ret ⟨w0, none, inv⟩ none (egress.TravelMessage ++ "\n\n")
  rw [h2]
  show writeOut ⟨w0, worldGet w0 egress.DestLabel, inv⟩ egress.TravelMessage okStream = _
  rw [h3]
  rfl

theorem C7_witness :
    gsSolo.Advance ⟨"GO", "", "OUT"⟩ okStream
      = .ret ⟨gsSolo.World, none, gsSolo.Inventory⟩ none (egOutMissing.TravelMessage ++ "\n\n") :=
  (C7_amended_dangling_dest gsSolo roomSolo egOutMissing "" "OUT" "X" rfl rfl rfl).1

/-- Claim C10 (amended): for every State with a current room, Advance of
an EXITS command leaves the State unchanged on every output stream, and,
when write and flush succeed, returns a nil error with the narration
being the concatenation, over the room's exits in order, of the aliases
joined by "/", then " -> ", then the exit's long description, one line
per exit (the IO layer appends the blank-line terminator). As stated
("never fails") the claim is false on a failing output stream: see the
counterexample. -/
theorem C10_amended_exits (gs : State) (room : Room) (cmd : Command) (ostream : OStream)
    (h1 : gs.CurrentRoom = some room) (h2 : cmd.Verb = "EXITS") :
    gs.Advance cmd okStream = .ret gs none (exitsNarrationSpec room.Exits ++ "\n\n")
    ∧ ∃ e w, gs.Advance cmd ostream = .ret gs e w := by
  obtain ⟨v, i, r⟩ := cmd
  replace h2 : v = "EXITS" := h2
  subst h2
  obtain ⟨w0, cr, inv⟩ := gs
  replace h1 : cr = some room := h1
  subst h1
  constructor
  · show writeOut ⟨w0, some room, inv⟩ (exitTableLoop room.Exits "") okStream
      = AdvanceResult.ret ⟨w0, some room, inv⟩ none (exitsNarrationSpec room.Exits ++ "\n\n")
    rw [writeOut_ok, exitTableLoop_eq, String.empty_append]
  · show ∃ e w, writeOut ⟨w0, some room, inv⟩ (exitTableLoop room.Exits "") ostream
      = AdvanceResult.ret ⟨w0, some room, inv⟩ e w
    exact writeOut_same_state _ _ _

theorem C10_witness :
    gsABC.Advance ⟨"EXITS", "", ""⟩ okStream
      = .ret gsABC none (exitsNarrationSpec roomA.Exits ++ "\n\n") :=
  (C10_amended_exits gsABC roomA ⟨"EXITS", "", ""⟩ okStream rfl rfl).1

theorem removeItem_noop (room : Room) (label : String)
    (h : ∀ it ∈ room.Items, it.Label ≠ label) : room.RemoveItem label = room := by
  unfold Room.RemoveItem
  rw [itemIndexFind_none label room.Items h]

/-- Claim C8 (amended): RemoveItem on a Room containing no item with the
given label leaves the Room unchanged and signals no error; when the
Room's item labels are pairwise distinct, RemoveItem is idempotent, and
after RemoveItem(L) a lookup by an alias carried only by items labelled L
returns absent. (As stated the claim is false when a second item shares
an alias with the removed one: see the counterexample.) -/
theorem C8_amended_remove_then_lookup (room : Room) (label alname : String) :
    ((∀ it ∈ room.Items, it.Label ≠ label) → room.RemoveItem label = room)
    ∧ ((room.Items.map Item.Label).Nodup →
        ((room.RemoveItem label).RemoveItem label = room.RemoveItem label
        ∧ ((∀ it ∈ room.Items, it.Aliases.contains alname = true → it.Label = label) →
            (room.RemoveItem label).GetItemByAlias alname = none))) := by
  have hAfterMem : ∀ it2 ∈ (room.RemoveItem label).Items, it2 ∈ room.Items := by
    intro it2 hm
    have hm2 : it2 ∈ removeFirstItem label room.Items := by
      rw [removeItem_items] at hm
      exact hm
    exact removeFirstItem_subset label room.Items it2 hm2
  refine ⟨fun h => removeItem_noop room label h, fun hnd => ⟨?_, ?_⟩⟩
  · apply removeItem_noop
    intro it2 hm
    have hm2 : it2 ∈ removeFirstItem label room.Items := by
      rw [removeItem_items] at hm
      exact hm
    exact removeFirstItem_no_label label room.Items hnd it2 hm2
  · intro hcar
    apply getItemByAlias_none
    intro it2 hm
    have hm2 : it2 ∈ removeFirstItem label room.Items := by
      rw [removeItem_items] at hm
      exact hm
    cases hca : it2.Aliases.contains alname with
    | false => rfl
    | true =>
      have hlab : it2.Label = label := hcar it2 (hAfterMem it2 hm) hca
      exact absurd hlab (removeFirstItem_no_label label room.Items hnd it2 hm2)

theorem C8_witness :
    (roomXZ.RemoveItem "Q" = roomXZ)
    ∧ ((roomXZ.RemoveItem "X").RemoveItem "X" = roomXZ.RemoveItem "X")
    ∧ (roomXZ.RemoveItem "X").GetItemByAlias "A" = none :=
  ⟨(C8_amended_remove_then_lookup roomXZ "Q" "A").1 (by decide),
   ((C8_amended_remove_then_lookup roomXZ "X" "A").2 (by decide)).1,
   ((C8_amended_remove_then_lookup roomXZ "X" "A").2 (by decide)).2 (by decide)⟩
